import Mathlib

/-!
Verification of the instrument configuration layer of a Digilent DWF
device controller (`dwf/device.go`).  Go code is shallowly embedded:
`float64` arithmetic is modelled exactly over `ℚ`, machine integers over
`ℕ`/`ℤ` with explicit `% 2 ^ w` where overflow matters, and fallible
driver calls are modelled by explicit `Option`/`Except` results passed in
as oracles.  Driver side effects relevant to the properties are recorded
as event traces.
-/

namespace Dwf

/-- Go conversion `int(x)` for a `float64` value `x`: truncation toward
zero.  The float computation itself is modelled exactly over `ℚ`. -/
def goInt (x : ℚ) : ℤ := if 0 ≤ x then ⌊x⌋ else -⌊-x⌋

/-! ## Pattern generator: `patternImpl.Generate`, pulse branch

```go
divider := int(internalFreq / cfg.Frequency)
...
steps := int(internalFreq/cfg.Frequency) / divider
high := int(float64(steps) * cfg.DutyCycle / 100)
low := steps - high
dwfDigitalOutCounterSet(h, ch, low, high)
```
-/

/-- The counter values computed by the pulse branch of
`patternImpl.Generate`.  Go integer division truncates toward zero
(`Int.tdiv`). -/
structure PulseCounters where
  divider : ℤ
  steps : ℤ
  high : ℤ
  low : ℤ
deriving DecidableEq, Repr

/-- Embedding of the pulse-counter computation of `patternImpl.Generate`
(`device.go` lines 754 and 794-798). -/
def patternPulse (internalFreq frequency dutyCycle : ℚ) : PulseCounters :=
  let divider := goInt (internalFreq / frequency)
  let steps := Int.tdiv (goInt (internalFreq / frequency)) divider
  let high := goInt ((steps : ℚ) * dutyCycle / 100)
  let low := steps - high
  ⟨divider, steps, high, low⟩

/-! ## Static I/O: `rotateLeft` and `staticIOImpl.SetMode`

```go
func rotateLeft(number, position, size uint32) uint32 {
    return (number << position) | (number >> (size - position))
}
```
All operands are `uint32`, so the left shift wraps modulo `2^32`.
-/

/-- Embedding of `rotateLeft` (`device.go` lines 863-865) on `uint32`
values. -/
def rotateLeft (number position size : ℕ) : ℕ :=
  ((number <<< position) % 2 ^ 32) ||| (number >>> (size - position))

/-- The new output-enable mask computed by `staticIOImpl.SetMode`
(`device.go` lines 867-883) from the previously read mask `mask`,
adjusted channel `ch` and channel count `count`.  `(1 << count) - 2` is
computed in `int` and converted to `uint32`. -/
def setModeMask (mask ch : ℕ) (output : Bool) (count : ℕ) : ℕ :=
  if output then
    mask ||| rotateLeft 1 ch count
  else
    mask &&& rotateLeft (((1 <<< count) - 2) % 2 ^ 32) ch count

/-! ## UART: `uartImpl.Read` -/

/-- Errors returned by `uartImpl.Read`. -/
inductive UartError where
  | overflow
  | parityError (index : ℤ)
  | driver (msg : String)
deriving DecidableEq, Repr

/-- Embedding of `uartImpl.Read` (`device.go` lines 984-1002) after the
buffer length was chosen.  `rx` is the result of `dwfDigitalUartRx`: on
success a pair of received data and the parity indicator.  Go returns
`nil` data on a driver error, modelled as `none`. -/
def uartRead (rx : Except String (List ℕ × ℤ)) :
    Option (List ℕ) × Option UartError :=
  match rx with
  | .error e => (none, some (.driver e))
  | .ok (data, parity) =>
    if parity < 0 then (some data, some .overflow)
    else if parity > 0 then (some data, some (.parityError parity))
    else (some data, none)

/-! ## Logic analyzer: `logicImpl.Open`, `SetTrigger`, `Record` -/

/-- Divider computed by `logicImpl.Open` (`device.go` line 641):
`divider := int(internalFreq / cfg.SamplingFrequency)`. -/
def logicDivider (internalFreq samplingFreq : ℚ) : ℤ :=
  goInt (internalFreq / samplingFreq)

/-- Recorded buffer size computed by `logicImpl.Open`
(`device.go` lines 632-635). -/
def logicOpenBufferSize (cfgBufferSize maxBuf : ℤ) : ℤ :=
  if cfgBufferSize = 0 ∨ cfgBufferSize > maxBuf then maxBuf else cfgBufferSize

/-- The clamped prefill position computed by `logicImpl.SetTrigger`
(`device.go` lines 661-667): two sequential conditional assignments. -/
def logicClampPosition (position bufferSize : ℤ) : ℤ :=
  let pos := if position < 0 then 0 else position
  if pos > bufferSize then bufferSize else pos

/-- The arguments passed by `logicImpl.SetTrigger` to
`dwfDigitalInTriggerPositionSet` and `dwfDigitalInTriggerPrefillSet`
(`device.go` lines 668-672), in that order. -/
def logicTriggerCalls (bufferSize position : ℤ) : ℤ × ℤ :=
  (bufferSize - logicClampPosition position bufferSize,
   logicClampPosition position bufferSize)

/-- Per-sample reduction performed by `logicImpl.Record`
(`device.go` line 720): `(buffer[i] & (1 << channel)) >> channel` on
`uint16` values, so the single-bit mask wraps modulo `2^16`. -/
def logicReduceSample (w channel : ℕ) : ℕ :=
  (w &&& ((1 <<< channel) % 2 ^ 16)) >>> channel

/-- Embedding of the successful path of `logicImpl.Record`
(`device.go` lines 701-723): a buffer of `bufferSize` raw `uint16`
samples delivered by `dwfDigitalInStatusData` (modelled by the oracle
`raw`, reduced modulo `2^16`), each reduced to the requested line. -/
def logicRecord (bufferSize : ℕ) (raw : ℕ → ℕ) (channel : ℕ) : List ℕ :=
  (List.range bufferSize).map (fun i => logicReduceSample (raw i % 2 ^ 16) channel)

/-! ## Device session: `Device.Close`

```go
func (d *Device) Close() error {
    if d.handle != 0 {
        err := dwfDeviceClose(d.handle)
        d.handle = 0
        return err
    }
    return nil
}
```
-/

/-- The part of the device session state `Device.Close` touches. -/
structure DeviceState where
  handle : ℤ
deriving DecidableEq, Repr

/-- Driver calls issued by `Device.Close`. -/
inductive DevEvent where
  | closeDev (handle : ℤ)
deriving DecidableEq, Repr

/-- Embedding of `Device.Close` (`device.go` lines 225-232).  `closeErr`
is the oracle result of `dwfDeviceClose`; the returned trace lists the
driver calls performed. -/
def deviceClose (st : DeviceState) (closeErr : Option String) :
    DeviceState × List DevEvent × Option String :=
  if st.handle ≠ 0 then
    (⟨0⟩, [.closeDev st.handle], closeErr)
  else
    (st, [], none)

/-! ## SPI: `spiImpl.Read` / `Write` / `Exchange`

Each call brackets the data transfer between `dwfDigitalSpiSelect(cs, 0)`
and `dwfDigitalSpiSelect(cs, 1)`; a failed transfer still de-asserts the
chip select (with the de-assert error discarded) before returning.
-/

/-- Driver calls issued by the SPI transfer functions. -/
inductive SpiEvent where
  | select (cs level : ℤ)
  | transfer
deriving DecidableEq, Repr

/-- Embedding of `spiImpl.Write` (`device.go` lines 1074-1084).
`selAssert`, `xfer` and `selDeassert` are the oracle results of the
`dwfDigitalSpiSelect(cs, 0)`, `dwfDigitalSpiWrite` and
`dwfDigitalSpiSelect(cs, 1)` calls. -/
def spiWrite (cs : ℤ) (selAssert : Option String) (xfer : Option String)
    (selDeassert : Option String) : List SpiEvent × Option String :=
  match selAssert with
  | some e => ([.select cs 0], some e)
  | none =>
    match xfer with
    | some e => ([.select cs 0, .transfer, .select cs 1], some e)
    | none => ([.select cs 0, .transfer, .select cs 1], selDeassert)

/-- Embedding of `spiImpl.Read` (`device.go` lines 1058-1072).  `xfer`
is the result of `dwfDigitalSpiRead` filling the buffer; on a transfer
error Go returns `nil` data (here `none`), on a de-assert error the
buffer is still returned together with the error. -/
def spiRead (cs : ℤ) (selAssert : Option String)
    (xfer : Except String (List ℕ)) (selDeassert : Option String) :
    List SpiEvent × Option (List ℕ) × Option String :=
  match selAssert with
  | some e => ([.select cs 0], none, some e)
  | none =>
    match xfer with
    | .error e => ([.select cs 0, .transfer, .select cs 1], none, some e)
    | .ok buf => ([.select cs 0, .transfer, .select cs 1], some buf, selDeassert)

/-- Embedding of `spiImpl.Exchange` (`device.go` lines 1086-1100); same
control flow as `spiImpl.Read` with `dwfDigitalSpiWriteRead` as the
transfer. -/
def spiExchange (cs : ℤ) (selAssert : Option String)
    (xfer : Except String (List ℕ)) (selDeassert : Option String) :
    List SpiEvent × Option (List ℕ) × Option String :=
  match selAssert with
  | some e => ([.select cs 0], none, some e)
  | none =>
    match xfer with
    | .error e => ([.select cs 0, .transfer, .select cs 1], none, some e)
    | .ok buf => ([.select cs 0, .transfer, .select cs 1], some buf, selDeassert)

/-! ## I2C: `i2cImpl.Scan`

```go
for addr := 0x08; addr <= 0x77; addr++ {
    nak, err := dwfDigitalI2cWrite(h, cInt(addr<<1), nil)
    if err != nil { return nil, err }
    if nak == 0 { found = append(found, addr) }
}
```
-/

/-- One iteration block of the `i2cImpl.Scan` loop, with `n` addresses
left to probe starting at `addr`.  `bus` is the oracle for
`dwfDigitalI2cWrite` on a zero-length write, indexed by the probed
(shifted) address byte, returning the NAK indicator.  Returns the probe
trace and the collected address list (or the first driver error). -/
def i2cScanLoop (bus : ℕ → Except String ℤ) :
    ℕ → ℕ → List ℕ × Except String (List ℕ)
  | _, 0 => ([], .ok [])
  | addr, n + 1 =>
    match bus (addr <<< 1) with
    | .error e => ([addr <<< 1], .error e)
    | .ok nak =>
      let rest := i2cScanLoop bus (addr + 1) n
      ((addr <<< 1) :: rest.1,
       match rest.2 with
       | .error e => .error e
       | .ok found => .ok (if nak = 0 then addr :: found else found))

/-- Embedding of `i2cImpl.Scan` (`device.go` lines 1142-1155): the loop
runs over the 112 seven-bit addresses `0x08` through `0x77`. -/
def i2cScan (bus : ℕ → Except String ℤ) : List ℕ × Except String (List ℕ) :=
  i2cScanLoop bus 0x08 112

/-- A simulated bus that ACKs (NAK = 0) exactly the 7-bit addresses
`0x20`, `0x50` and `0x68`, i.e. the shifted address bytes `0x40`,
`0xA0`, `0xD0`. -/
def exampleBus (probe : ℕ) : Except String ℤ :=
  if probe = 0x40 ∨ probe = 0xA0 ∨ probe = 0xD0 then .ok 0 else .ok 1

/-! ## Power supply: `supplyImpl.setNode` / `Switch` -/

/-- The analog-I/O channel/node name space exposed by the device:
one `(label, node names)` entry per channel, in channel-index order. -/
structure AnalogEnv where
  channels : List (String × List String)
  nodeSetResult : ℕ → ℕ → Option String
  enableSetResult : Bool → Option String

/-- Scan of the node names of one channel, mirroring the inner loop of
`supplyImpl.findChannelNode` (`device.go` lines 454-462). -/
def findNodeIn (nodes : List String) (nodeName : String) (i : ℕ) : Option ℕ :=
  match nodes with
  | [] => none
  | n :: rest =>
    if n = nodeName then some i else findNodeIn rest nodeName (i + 1)

/-- Scan of the channels, mirroring the outer loop of
`supplyImpl.findChannelNode` (`device.go` lines 439-465): a channel with
a matching label but no matching node does not stop the scan. -/
def findChannelNodeIn (chs : List (String × List String))
    (label nodeName : String) (ch : ℕ) : Option (ℕ × ℕ) :=
  match chs with
  | [] => none
  | (lbl, nodes) :: rest =>
    if lbl = label then
      match findNodeIn nodes nodeName 0 with
      | some n => some (ch, n)
      | none => findChannelNodeIn rest label nodeName (ch + 1)
    else findChannelNodeIn rest label nodeName (ch + 1)

/-- Embedding of `supplyImpl.findChannelNode`. -/
def findChannelNode (env : AnalogEnv) (label nodeName : String) :
    Option (ℕ × ℕ) :=
  findChannelNodeIn env.channels label nodeName 0

/-- Driver calls issued by `supplyImpl.Switch`.  A `nodeSet` event
records the discarded result of the write. -/
inductive SupplyEvent where
  | nodeSet (ch node : ℕ) (value : ℚ) (discarded : Option String)
  | masterEnable (state : Bool)
deriving DecidableEq, Repr

/-- Embedding of `supplyImpl.setNode` (`device.go` lines 467-475): the
first label that resolves gets one node write whose error is discarded
(`_ = dwfAnalogIOChannelNodeSet(...)`); no error is ever returned. -/
def setNode (env : AnalogEnv) (labels : List String) (nodeName : String)
    (value : ℚ) : List SupplyEvent :=
  match labels with
  | [] => []
  | label :: rest =>
    match findChannelNode env label nodeName with
    | some (ch, n) => [.nodeSet ch n value (env.nodeSetResult ch n)]
    | none => setNode env rest nodeName value

/-- The fields of `SuppliesConfig` used by `supplyImpl.Switch`. -/
structure SuppliesConfig where
  MasterState : Bool
  PositiveState : Bool
  NegativeState : Bool
  State : Bool
  PositiveVoltage : ℚ
  NegativeVoltage : ℚ
  Voltage : ℚ
  PositiveCurrent : ℚ
  NegativeCurrent : ℚ
  Current : ℚ

/-- Embedding of `supplyImpl.Switch` (`device.go` lines 477-510): nine
`setNode` calls whose failures are discarded, then the master enable
whose result is returned verbatim. -/
def supplySwitch (env : AnalogEnv) (cfg : SuppliesConfig) :
    List SupplyEvent × Option String :=
  let posEnable : ℚ := if cfg.PositiveState then 1 else 0
  let negEnable : ℚ := if cfg.NegativeState then 1 else 0
  let digEnable : ℚ := if cfg.State then 1 else 0
  let events :=
    setNode env ["V+", "p25V"] "Enable" posEnable ++
    setNode env ["V+", "p25V"] "Voltage" cfg.PositiveVoltage ++
    setNode env ["V+", "p25V"] "Current" cfg.PositiveCurrent ++
    setNode env ["V-", "n25V"] "Enable" negEnable ++
    setNode env ["V-", "n25V"] "Voltage" cfg.NegativeVoltage ++
    setNode env ["V-", "n25V"] "Current" cfg.NegativeCurrent ++
    setNode env ["VDD", "p6V"] "Enable" digEnable ++
    setNode env ["VDD", "p6V"] "Voltage" cfg.Voltage ++
    setNode env ["VDD", "p6V"] "Current" cfg.Current ++
    [SupplyEvent.masterEnable cfg.MasterState]
  (events, env.enableSetResult cfg.MasterState)

end Dwf

namespace Dwf

/-! ## Helper lemmas -/

/-- Go `int(x)` agrees with the floor for nonnegative arguments. -/
theorem goInt_of_nonneg {x : ℚ} (h : 0 ≤ x) : goInt x = ⌊x⌋ := by
  simp [goInt, h]

/-- `rotateLeft 1 c N` is the single-bit mask `2 ^ c` whenever
`c < N ≤ 32`. -/
theorem rotateLeft_one (c N : ℕ) (hc : c < N) (hN : N ≤ 32) :
    rotateLeft 1 c N = 2 ^ c := by
  unfold rotateLeft
  have h1 : (1 <<< c) % 2 ^ 32 = 2 ^ c := by
    rw [Nat.one_shiftLeft,
      Nat.mod_eq_of_lt (Nat.pow_lt_pow_right one_lt_two (by omega))]
  have h2 : 1 >>> (N - c) = 0 := by
    rw [Nat.shiftRight_eq_div_pow]
    apply Nat.div_eq_of_lt
    have h3 : (2 : ℕ) ^ 1 ≤ 2 ^ (N - c) :=
      Nat.pow_le_pow_right (by omega) (by omega)
    omega
  rw [h1, h2]
  simp

/-- Bit `i` of the all-but-bit-zero pattern `(1 << N) - 2`. -/
theorem disableBits_testBit (N i : ℕ) (hN : 1 ≤ N) :
    ((1 <<< N) - 2).testBit i = (decide (1 ≤ i) && decide (i < N)) := by
  have hsplit : (1 <<< N) - 2 = (2 ^ (N - 1) - 1) <<< 1 := by
    rw [Nat.one_shiftLeft, Nat.shiftLeft_eq]
    have h2 : 2 ^ N = 2 ^ (N - 1) * 2 := by
      rw [← pow_succ]
      congr 1
      omega
    have h3 : 1 ≤ 2 ^ (N - 1) := Nat.one_le_two_pow
    omega
  rw [hsplit, Nat.testBit_shiftLeft, Nat.testBit_two_pow_sub_one]
  by_cases h1 : 1 ≤ i
  · by_cases h2 : i < N
    · simp [h1, h2, show i - 1 < N - 1 by omega]
    · simp [h1, h2, show ¬(i - 1 < N - 1) by omega]
  · simp [show ¬(1 ≤ i) from h1]

/-- Within the low `N` bits, the rotated disable pattern has every bit
set except bit `c`. -/
theorem rotateLeft_disable_testBit (N c i : ℕ) (hc : c < N) (hN : N ≤ 32)
    (hi : i < N) :
    (rotateLeft (((1 <<< N) - 2) % 2 ^ 32) c N).testBit i = decide (i ≠ c) := by
  have hN1 : 1 ≤ N := by omega
  have hlt : (1 <<< N) - 2 < 2 ^ 32 := by
    rw [Nat.one_shiftLeft]
    have h3 : (2 : ℕ) ^ N ≤ 2 ^ 32 := Nat.pow_le_pow_right (by omega) hN
    have h4 : 1 ≤ 2 ^ N := Nat.one_le_two_pow
    omega
  rw [Nat.mod_eq_of_lt hlt]
  unfold rotateLeft
  rw [Nat.testBit_lor, Nat.testBit_mod_two_pow, Nat.testBit_shiftLeft,
    Nat.testBit_shiftRight, disableBits_testBit N _ hN1,
    disableBits_testBit N _ hN1]
  by_cases h : i = c
  · subst h
    simp [show ¬(1 ≤ i - i) by omega, show ¬(N - i + i < N) by omega]
  · by_cases h2 : i < c
    · simp [show 1 ≤ N - c + i by omega, show N - c + i < N by omega, h]
    · have hci : c < i := by omega
      simp [show i < 32 by omega, show c ≤ i by omega, show 1 ≤ i - c by omega,
        show i - c < N by omega, h]

/-- Unfolding of the `i2cImpl.Scan` loop over an error-free bus: the
probe trace is the shifted address range and the result is the filtered
address range. -/
theorem i2cScanLoop_ok (f : ℕ → ℤ) : ∀ (n addr : ℕ),
    (i2cScanLoop (fun a => .ok (f a)) addr n).1
      = (List.range' addr n 1).map (fun a => a <<< 1) ∧
    (i2cScanLoop (fun a => .ok (f a)) addr n).2
      = .ok ((List.range' addr n 1).filter (fun a => decide (f (a <<< 1) = 0)))
  | 0, addr => by simp [i2cScanLoop]
  | n + 1, addr => by
    have ih := i2cScanLoop_ok f n (addr + 1)
    simp only [i2cScanLoop, List.range'_succ, List.map_cons, List.filter_cons]
    refine ⟨by rw [ih.1], ?_⟩
    rw [ih.2]
    by_cases h : f (addr <<< 1) = 0 <;> simp [h]

/-! ## Claim theorems -/

/-- C1 (amended): for a pulse pattern request with duty cycle
`d ∈ [0, 100]`, positive frequency not above the internal clock, the
counters of `patternImpl.Generate` satisfy `high + low = steps` and
`high = ⌊steps * d / 100⌋` — the code truncates (`int(...)` conversion)
rather than rounding. -/
theorem pattern_pulse_high_low_spec (C f d : ℚ) (hf : 0 < f) (hC : f ≤ C)
    (hd0 : 0 ≤ d) (hd1 : d ≤ 100) :
    (patternPulse C f d).high + (patternPulse C f d).low
      = (patternPulse C f d).steps ∧
    (patternPulse C f d).high = ⌊((patternPulse C f d).steps : ℚ) * d / 100⌋ := by
  have hq : (1 : ℚ) ≤ C / f := (one_le_div hf).mpr hC
  have hq0 : (0 : ℚ) ≤ C / f := le_trans zero_le_one hq
  have hgi : goInt (C / f) = ⌊C / f⌋ := goInt_of_nonneg hq0
  have hge1 : (1 : ℤ) ≤ ⌊C / f⌋ := by
    exact_mod_cast Int.le_floor.mpr (by exact_mod_cast hq)
  have hne : ⌊C / f⌋ ≠ 0 := by omega
  have hsteps : (patternPulse C f d).steps = 1 := by
    simp [patternPulse, hgi, Int.tdiv_self hne]
  refine ⟨by simp [patternPulse], ?_⟩
  have hhigh : (patternPulse C f d).high
      = goInt (((patternPulse C f d).steps : ℚ) * d / 100) := rfl
  rw [hhigh, hsteps]
  refine goInt_of_nonneg ?_
  positivity

/-- C1 witness: internal clock 100 Hz, frequency 2 Hz, duty cycle 50. -/
theorem pattern_pulse_high_low_spec_witness :
    ((0 : ℚ) < 2 ∧ (2 : ℚ) ≤ 100 ∧ (0 : ℚ) ≤ 50 ∧ (50 : ℚ) ≤ 100) ∧
    ((patternPulse 100 2 50).high + (patternPulse 100 2 50).low
      = (patternPulse 100 2 50).steps ∧
     (patternPulse 100 2 50).high
      = ⌊((patternPulse 100 2 50).steps : ℚ) * 50 / 100⌋) :=
  ⟨⟨by norm_num, by norm_num, by norm_num, by norm_num⟩,
   pattern_pulse_high_low_spec 100 2 50 (by norm_num) (by norm_num)
     (by norm_num) (by norm_num)⟩

/-- C1 counterexample: with internal clock 100 Hz, frequency 1 Hz and
duty cycle 60, the code programs `high = 0` (truncation of `0.6`) while
rounding `steps * d / 100 = 0.6` gives `1`, so the claimed
`high = round(steps * d / 100)` is false. -/
theorem pattern_pulse_round_counterexample :
    ¬ ((patternPulse 100 1 60).high
        = round (((patternPulse 100 1 60).steps : ℚ) * 60 / 100)) := by
  have h1 : (patternPulse 100 1 60).high = 0 := by
    norm_num [patternPulse, goInt, Int.tdiv]
  have h2 : (patternPulse 100 1 60).steps = 1 := by
    norm_num [patternPulse, goInt, Int.tdiv]
  rw [h1, h2, round_eq]
  norm_num

/-- C2: for channel count `N ≤ 32`, channel `c < N` and a previously
read output-enable mask within the device's `N` mask bits,
`staticIOImpl.SetMode` sets (enable) or clears (disable) exactly bit `c`
and leaves every other bit unchanged; the bit is isolated via
`rotateLeft` with rotate amount `c` and width `N`. -/
theorem setMode_bit_isolation_spec (N c mask i : ℕ) (hc : c < N)
    (hN : N ≤ 32) (hm : mask < 2 ^ N) :
    (setModeMask mask c true N).testBit i
      = (mask.testBit i || decide (i = c)) ∧
    (setModeMask mask c false N).testBit i
      = (mask.testBit i && decide (i ≠ c)) := by
  constructor
  · show (mask ||| rotateLeft 1 c N).testBit i = _
    rw [rotateLeft_one c N hc hN, Nat.testBit_lor, Nat.testBit_two_pow]
    simp [eq_comm]
  · show (mask &&& rotateLeft (((1 <<< N) - 2) % 2 ^ 32) c N).testBit i = _
    rw [Nat.testBit_land]
    by_cases hi : i < N
    · rw [rotateLeft_disable_testBit N c i hc hN hi]
    · have hmf : mask.testBit i = false :=
        Nat.testBit_lt_two_pow
          (lt_of_lt_of_le hm (Nat.pow_le_pow_right (by omega) (by omega)))
      simp [hmf]

/-- C2 witness: 16 channels, channel 3, mask `0b101`, bit 3. -/
theorem setMode_bit_isolation_spec_witness :
    (3 < 16 ∧ 16 ≤ 32 ∧ 5 < 2 ^ 16) ∧
    ((setModeMask 5 3 true 16).testBit 3
      = (Nat.testBit 5 3 || decide (3 = 3)) ∧
     (setModeMask 5 3 false 16).testBit 3
      = (Nat.testBit 5 3 && decide (3 ≠ 3))) :=
  ⟨⟨by decide, by decide, by decide⟩,
   setMode_bit_isolation_spec 16 3 5 3 (by decide) (by decide) (by decide)⟩

/-- C3: `uartImpl.Read` with a negative parity indicator returns the
data together with the overflow error; a positive indicator `k` returns
the data together with a parity error at offset `k`; a zero indicator
returns the data with no error. -/
theorem uartRead_error_spec (data : List ℕ) (parity : ℤ) :
    (parity < 0 → uartRead (.ok (data, parity)) = (some data, some .overflow)) ∧
    (0 < parity →
      uartRead (.ok (data, parity)) = (some data, some (.parityError parity))) ∧
    (parity = 0 → uartRead (.ok (data, parity)) = (some data, none)) := by
  refine ⟨fun h => ?_, fun h => ?_, fun h => ?_⟩
  · simp [uartRead, h]
  · have h2 : ¬ parity < 0 := by omega
    simp [uartRead, h, h2]
  · simp [uartRead, h]

/-- C3 witness: data `[7]` with indicators `-1`, `2` and `0`. -/
theorem uartRead_error_spec_witness :
    uartRead (.ok ([7], -1)) = (some [7], some .overflow) ∧
    uartRead (.ok ([7], 2)) = (some [7], some (.parityError 2)) ∧
    uartRead (.ok ([7], 0)) = (some [7], none) :=
  ⟨(uartRead_error_spec [7] (-1)).1 (by decide),
   (uartRead_error_spec [7] 2).2.1 (by decide),
   (uartRead_error_spec [7] 0).2.2 rfl⟩

/-- C4: with a buffer size recorded by `logicImpl.Open` from nonnegative
requested and maximum sizes, the position clamped by
`logicImpl.SetTrigger` lies in `[0, bufferSize]`, equals
`max 0 (min p bufferSize)`, the programmed hardware trigger position is
`bufferSize - clamp(p)` and the programmed prefill is `clamp(p)`. -/
theorem logic_setTrigger_clamp_spec (cfgBuf maxBuf p : ℤ) (h1 : 0 ≤ cfgBuf)
    (h2 : 0 ≤ maxBuf) :
    0 ≤ logicClampPosition p (logicOpenBufferSize cfgBuf maxBuf) ∧
    logicClampPosition p (logicOpenBufferSize cfgBuf maxBuf)
      ≤ logicOpenBufferSize cfgBuf maxBuf ∧
    logicClampPosition p (logicOpenBufferSize cfgBuf maxBuf)
      = max 0 (min p (logicOpenBufferSize cfgBuf maxBuf)) ∧
    (logicTriggerCalls (logicOpenBufferSize cfgBuf maxBuf) p).1
      = logicOpenBufferSize cfgBuf maxBuf
        - logicClampPosition p (logicOpenBufferSize cfgBuf maxBuf) ∧
    (logicTriggerCalls (logicOpenBufferSize cfgBuf maxBuf) p).2
      = logicClampPosition p (logicOpenBufferSize cfgBuf maxBuf) := by
  have hb : 0 ≤ logicOpenBufferSize cfgBuf maxBuf := by
    unfold logicOpenBufferSize
    split_ifs <;> omega
  refine ⟨?_, ?_, ?_, rfl, rfl⟩ <;> unfold logicClampPosition <;> dsimp only <;>
    split_ifs <;> omega

/-- C4 witness: requested size 0 (use maximum), maximum 10, requested
position -5. -/
theorem logic_setTrigger_clamp_spec_witness :
    ((0 : ℤ) ≤ 0 ∧ (0 : ℤ) ≤ 10) ∧
    (0 ≤ logicClampPosition (-5) (logicOpenBufferSize 0 10) ∧
     logicClampPosition (-5) (logicOpenBufferSize 0 10)
       ≤ logicOpenBufferSize 0 10 ∧
     logicClampPosition (-5) (logicOpenBufferSize 0 10)
       = max 0 (min (-5) (logicOpenBufferSize 0 10)) ∧
     (logicTriggerCalls (logicOpenBufferSize 0 10) (-5)).1
       = logicOpenBufferSize 0 10
         - logicClampPosition (-5) (logicOpenBufferSize 0 10) ∧
     (logicTriggerCalls (logicOpenBufferSize 0 10) (-5)).2
       = logicClampPosition (-5) (logicOpenBufferSize 0 10)) :=
  ⟨⟨by decide, by decide⟩,
   logic_setTrigger_clamp_spec 0 10 (-5) (by decide) (by decide)⟩

/-- C5: in `spiImpl.Write`, `Read` and `Exchange`, when chip select was
successfully asserted (level 0) and the data transfer fails, the chip
select is de-asserted (level 1) after the transfer and before the error
is returned: the full driver-call trace is assert, transfer, de-assert,
and the returned error is the transfer error. -/
theorem spi_deassert_on_failure_spec (cs : ℤ) (e : String)
    (selDeassert : Option String) :
    (spiWrite cs none (some e) selDeassert
      = ([.select cs 0, .transfer, .select cs 1], some e)) ∧
    (spiRead cs none (.error e) selDeassert
      = ([.select cs 0, .transfer, .select cs 1], none, some e)) ∧
    (spiExchange cs none (.error e) selDeassert
      = ([.select cs 0, .transfer, .select cs 1], none, some e)) :=
  ⟨rfl, rfl, rfl⟩

/-- C6: `i2cImpl.Scan` over an error-free bus probes exactly the 7-bit
addresses `0x08` through `0x77` in order, each as a zero-length write of
the address shifted left by one, returns exactly the addresses whose
probe returned NAK 0 in ascending order, and over a bus ACKing only
`{0x20, 0x50, 0x68}` returns exactly `[0x20, 0x50, 0x68]`. -/
theorem i2cScan_spec (f : ℕ → ℤ) :
    (i2cScan (fun a => .ok (f a))).1
      = (List.range' 0x08 112 1).map (fun a => a <<< 1) ∧
    (i2cScan (fun a => .ok (f a))).2
      = .ok ((List.range' 0x08 112 1).filter (fun a => decide (f (a <<< 1) = 0))) ∧
    List.Sorted (· < ·)
      ((List.range' 0x08 112 1).filter (fun a => decide (f (a <<< 1) = 0))) ∧
    i2cScan exampleBus
      = ((List.range' 0x08 112 1).map (fun a => a <<< 1),
         .ok [0x20, 0x50, 0x68]) := by
  obtain ⟨h1, h2⟩ := i2cScanLoop_ok f 112 0x08
  exact ⟨h1, h2, (List.pairwise_lt_range' 0x08 112 1 (by simp)).filter _, rfl⟩

/-- C7: the divider programmed by `logicImpl.Open` equals `⌊C / f⌋` for
internal clock `C ≥ 0` and sampling frequency `f > 0`, and the
`logicImpl.Record` reduction of the raw word `0b1010` for line 1 yields
bit value 1. -/
theorem logic_divider_reduce_spec (C f : ℚ) (hf : 0 < f) (hC : 0 ≤ C) :
    logicDivider C f = ⌊C / f⌋ ∧ logicReduceSample 10 1 = 1 :=
  ⟨goInt_of_nonneg (div_nonneg hC hf.le), by decide⟩

/-- C7 witness: internal clock 100 Hz, sampling frequency 8 Hz. -/
theorem logic_divider_reduce_spec_witness :
    ((0 : ℚ) < 8 ∧ (0 : ℚ) ≤ 100) ∧
    (logicDivider 100 8 = ⌊(100 : ℚ) / 8⌋ ∧ logicReduceSample 10 1 = 1) :=
  ⟨⟨by norm_num, by norm_num⟩,
   logic_divider_reduce_spec 100 8 (by norm_num) (by norm_num)⟩

/-- C8: `Device.Close` on a closed session (zero handle) performs no
driver call and returns no error; on an open session it closes the
native handle, zeroes it, and a second `Close` is a no-op without
error. -/
theorem deviceClose_idempotent_spec (st : DeviceState) (e e2 : Option String) :
    (st.handle = 0 → deviceClose st e = (st, [], none)) ∧
    (st.handle ≠ 0 →
      (deviceClose st e).1.handle = 0 ∧
      (deviceClose st e).2.1 = [.closeDev st.handle] ∧
      (deviceClose st e).2.2 = e) ∧
    deviceClose (deviceClose st e).1 e2 = ((deviceClose st e).1, [], none) := by
  refine ⟨fun h => by simp [deviceClose, h], fun h => by simp [deviceClose, h], ?_⟩
  by_cases h : st.handle = 0 <;> simp [deviceClose, h]

/-- C8 witness: a closed session with handle 0 and an open session with
handle 5 whose driver close fails. -/
theorem deviceClose_idempotent_spec_witness :
    deviceClose ⟨0⟩ none = (⟨0⟩, [], none) ∧
    ((deviceClose ⟨5⟩ (some "boom")).1.handle = 0 ∧
     (deviceClose ⟨5⟩ (some "boom")).2.1 = [.closeDev 5] ∧
     (deviceClose ⟨5⟩ (some "boom")).2.2 = some "boom") :=
  ⟨(deviceClose_idempotent_spec ⟨0⟩ none none).1 rfl,
   (deviceClose_idempotent_spec ⟨5⟩ (some "boom") none).2.1 (by decide)⟩

/-- C9: `supplyImpl.Switch` returns exactly the result of the final
master-enable driver call; the discarded per-rail node-write results
never influence the returned value, for every device environment and
configuration. -/
theorem supplySwitch_master_only_spec (env : AnalogEnv) (cfg : SuppliesConfig)
    (f : ℕ → ℕ → Option String) :
    (supplySwitch env cfg).2 = env.enableSetResult cfg.MasterState ∧
    (supplySwitch { env with nodeSetResult := f } cfg).2
      = (supplySwitch env cfg).2 :=
  ⟨rfl, rfl⟩

/-- C10: a successful `logicImpl.Record` for a line `channel < 16`
returns exactly `bufferSize` samples, each reduced to bit value 0
or 1. -/
theorem logicRecord_shape_spec (bufSize : ℕ) (raw : ℕ → ℕ) (channel : ℕ)
    (hch : channel < 16) :
    (logicRecord bufSize raw channel).length = bufSize ∧
    ∀ x ∈ logicRecord bufSize raw channel, x = 0 ∨ x = 1 := by
  constructor
  · simp [logicRecord]
  · intro x hx
    simp only [logicRecord, List.mem_map, List.mem_range] at hx
    obtain ⟨i, _, hxi⟩ := hx
    have hle : x ≤ 1 := by
      rw [← hxi]
      unfold logicReduceSample
      have h1 : (1 <<< channel) % 2 ^ 16 = 2 ^ channel := by
        rw [Nat.one_shiftLeft,
          Nat.mod_eq_of_lt (Nat.pow_lt_pow_right one_lt_two hch)]
      rw [h1, Nat.shiftRight_eq_div_pow]
      calc (raw i % 2 ^ 16 &&& 2 ^ channel) / 2 ^ channel
          ≤ 2 ^ channel / 2 ^ channel :=
            Nat.div_le_div_right Nat.and_le_right
        _ = 1 := Nat.div_self (Nat.pos_pow_of_pos channel (by omega))
    omega

/-- C10 witness: buffer of 3 raw words `0b1010`, line 1. -/
theorem logicRecord_shape_spec_witness :
    (1 < 16) ∧
    ((logicRecord 3 (fun _ => 10) 1).length = 3 ∧
     ∀ x ∈ logicRecord 3 (fun _ => 10) 1, x = 0 ∨ x = 1) :=
  ⟨by decide, logicRecord_shape_spec 3 (fun _ => 10) 1 (by decide)⟩

end Dwf
